import Mathlib

/-
Verification development for the pulumi-mkschema repository.

The Go source is shallowly embedded: the semantic type model delivered by the
external loader (package go/types) becomes the inductive GoType, struct tags
(package reflect, key/value lookup) become association lists, Go maps become
association lists with replace-on-insert, and each fallible Go function
becomes a Lean function returning Except GoError. A Go runtime panic from an
out-of-bounds slice index is modelled as the distinguished error
panicIndexOutOfRange, since either way the run aborts at that point.
The string constants produced by the external pulumi schema package
(schema.BoolType.String() and friends) are embedded as named constants.
-/

set_option autoImplicit false

namespace MkSchema

/-- Basic kinds of the Go type checker that can appear as field types.
Mirrors go/types BasicKind; the untyped kinds and a few exotic kinds that
cannot occur as declared struct field types are omitted. -/
inductive BasicKind : Type where
  | bool
  | int
  | int8
  | int16
  | int32
  | int64
  | uint
  | uint8
  | uint16
  | uint32
  | uint64
  | uintptr
  | float32
  | float64
  | complex64
  | complex128
  | string
deriving DecidableEq, Repr

/-- A named type object of the Go type checker (go/types TypeName): its simple
name and the path of its defining package. -/
structure TypeName : Type where
  name : String
  pkgPath : String
deriving DecidableEq, Repr

/-- A struct tag, embedded as the list of key/value pairs that reflect
StructTag lookup exposes. -/
abbrev Tag : Type := List (String × String)

/-- Lookup of a key in a struct tag, mirroring reflect StructTag Lookup
(first matching key wins). -/
def lookupTag (tag : Tag) (key : String) : Option String :=
  match tag with
  | [] => none
  | (k, v) :: rest => if k = key then some v else lookupTag rest key

/-- Splitting a character list at every occurrence of a separator character. -/
def splitCharAux (c : Char) : List Char → List (List Char)
  | [] => [[]]
  | ch :: rest =>
    if ch = c then [] :: splitCharAux c rest
    else
      match splitCharAux c rest with
      | [] => [[ch]]
      | h :: t => (ch :: h) :: t

/-- Embeds strings.Split with a one-character separator: yields the pieces
between separators, so the empty string yields one empty piece. -/
def splitChar (c : Char) (s : String) : List String :=
  (splitCharAux c s.toList).map (fun l => String.mk l)

/-- Embeds strings.HasPrefix. -/
def goHasPrefix (s pre : String) : Bool :=
  pre.toList.isPrefixOf s.toList

/-- Embeds strings.LastIndex followed by the end-of-string comparison done in
pkgMatch, which together amount to a suffix test. -/
def goHasSuffix (s suf : String) : Bool :=
  suf.toList.isSuffixOf s.toList

/-- Embeds the slicing expression key[4:] of options.go, which drops the
ref= prefix. -/
def goDrop (s : String) (n : Nat) : String :=
  String.mk (s.toList.drop n)

mutual

/-- Shallow embedding of the go/types type shapes the source dispatches on. -/
inductive GoType : Type where
  | basic : BasicKind → GoType
  | interface : List String → GoType
  | named : TypeName → GoType → GoType
  | pointer : GoType → GoType
  | mapT : GoType → GoType → GoType
  | slice : GoType → GoType
  | structT : List SemField → GoType
  | chanT : GoType → GoType
  | funcT : GoType

/-- A semantic struct field (go/types Var plus the tag the enclosing struct
stores for it): name, anonymity flag, declared type, raw tag. -/
inductive SemField : Type where
  | mk : String → Bool → GoType → Tag → SemField

end

/-- Field name accessor. -/
def SemField.name : SemField → String
  | .mk n _ _ _ => n

/-- Anonymity (embedded field) accessor. -/
def SemField.anonymous : SemField → Bool
  | .mk _ a _ _ => a

/-- Declared type accessor. -/
def SemField.type : SemField → GoType
  | .mk _ _ t _ => t

/-- Raw tag accessor. -/
def SemField.tag : SemField → Tag
  | .mk _ _ _ tg => tg

/-- The errors produced by the embedded functions, one constructor per
errors.Errorf site of the source (positional diagnostics are dropped), plus
one constructor standing for the Go runtime panic on an out-of-range index. -/
inductive GoError : Type where
  | missingNameTag : String → String → GoError
  | outNotResource : String → String → GoError
  | replacesNotResource : String → String → GoError
  | optionalNotPointer : String → String → GoError
  | illegalSchemaType : String → String → GoError → GoError
  | badPrimitive : BasicKind → GoError
  | badNamedFieldType : GoError
  | nonStringMapKey : GoType → GoError
  | unrecognizedFieldType : GoType → GoError
  | panicIndexOutOfRange : Nat → Nat → GoError

/-- The fields of the external schema.TypeSpec the source populates: the type
string, the ref string, and the optional additionalProperties element. -/
inductive TypeSpec : Type where
  | mk : String → String → Option TypeSpec → TypeSpec

/-- Type string accessor. -/
def TypeSpec.type : TypeSpec → String
  | .mk t _ _ => t

/-- Ref string accessor. -/
def TypeSpec.ref : TypeSpec → String
  | .mk _ r _ => r

/-- AdditionalProperties accessor. -/
def TypeSpec.additionalProperties : TypeSpec → Option TypeSpec
  | .mk _ _ a => a

/-- String rendered by schema.BoolType.String() in the external package. -/
def boolTypeString : String := "boolean"

/-- String rendered by schema.IntType.String() in the external package. -/
def intTypeString : String := "integer"

/-- String rendered by schema.NumberType.String() in the external package. -/
def numberTypeString : String := "number"

/-- String rendered by schema.StringType.String() in the external package. -/
def stringTypeString : String := "string"

/-- String rendered by schema.AnyType.String() in the external package. -/
def anyTypeString : String := "pulumi.json#/Any"

/-- Embeds options.go PropertyNameTag. -/
def PropertyNameTag : String := "pulumi"

/-- Embeds options.go PropertyOptionsTag. -/
def PropertyOptionsTag : String := "pschema"

/-- Embeds the PropertyOptions struct of options.go; defaults are the Go zero
values. -/
structure PropertyOptions : Type where
  Name : String := ""
  Optional : Bool := false
  Replaces : Bool := false
  In : Bool := false
  Out : Bool := false
  Ref : String := ""
deriving DecidableEq, Repr

/-- One iteration of the option-decoding switch in ParsePropertyOptions
(options.go lines 43 to 58). -/
def applyOptionKey (result : PropertyOptions) (key : String) : PropertyOptions :=
  if key = "optional" then { result with Optional := true }
  else if key = "replaces" then { result with Replaces := true }
  else if key = "in" then { result with In := true }
  else if key = "out" then { result with Out := true }
  else if goHasPrefix key "ref=" then { result with Ref := goDrop key 4 }
  else result

/-- Embeds ParsePropertyOptions of options.go. Returns the hadTags flag, the
decoded options, and the error result, which the source always leaves nil. -/
def ParsePropertyOptions (tag : Tag) : Bool × PropertyOptions × Option GoError :=
  let st0 : Bool × PropertyOptions := (false, {})
  let st1 : Bool × PropertyOptions :=
    match lookupTag tag PropertyNameTag with
    | some name => (true, { st0.2 with Name := name })
    | none => st0
  let st2 : Bool × PropertyOptions :=
    match lookupTag tag PropertyOptionsTag with
    | some opts => (true, (splitChar ',' opts).foldl applyOptionKey st1.2)
    | none => st1
  (st2.1, st2.2, none)

/-- The kinds of special marker type, from part_000. -/
inductive SpecialType : Type where
  | NotSpecialType
  | SpecialResourceType
  | SpecialAssetType
  | SpecialArchiveType
deriving DecidableEq, Repr

/-- Package path of the pulumi SDK package holding the marker types, as
computed by reflect PkgPath on pulumi.ResourceState. -/
def idlResourcePkgPath : String := "github.com/pulumi/pulumi/sdk/v3/go/pulumi"

/-- Name rendered by idlArchiveType.Name() in part_000: the reflect type there
is a pointer type, whose Name() is the empty string. -/
def idlArchiveTypeName : String := ""

/-- Name rendered by idlAssetType.Name() in part_000: likewise a pointer type,
whose Name() is the empty string. -/
def idlAssetTypeName : String := ""

/-- Name rendered by idlResourceType.Name() in part_000. -/
def idlResourceTypeName : String := "ResourceState"

/-- Embeds pkgMatch of part_000. -/
def pkgMatch (pkg m : String) : Bool :=
  goHasSuffix pkg m

/-- Embeds IsSpecial of part_000, with the nil receiver check folded into an
Option argument. -/
def IsSpecial (obj : Option TypeName) : Bool × SpecialType :=
  match obj with
  | some o =>
    if pkgMatch o.pkgPath idlResourcePkgPath then
      if o.name = idlArchiveTypeName then (true, .SpecialArchiveType)
      else if o.name = idlAssetTypeName then (true, .SpecialAssetType)
      else if o.name = idlResourceTypeName then (true, .SpecialResourceType)
      else (false, .NotSpecialType)
    else (false, .NotSpecialType)
  | none => (false, .NotSpecialType)

/-- Embeds IsSpecialResource of part_000. -/
def IsSpecialResource (obj : Option TypeName) : Bool :=
  let s := IsSpecial obj
  s.1 && s.2 = SpecialType.SpecialResourceType

/-- Embeds IsResource of part_000: the declaration is special, or after one
unwrap of a named type its struct shape has an anonymous field whose named
type object is the special resource marker. -/
def IsResource (obj : Option TypeName) (t : GoType) : Bool :=
  if IsSpecialResource obj then true
  else
    let t1 : GoType :=
      match t with
      | .named _ u => u
      | _ => t
    match t1 with
    | .structT fields =>
      fields.any fun fld =>
        fld.anonymous && (match fld.type with
          | .named nobj _ => IsSpecialResource (some nobj)
          | _ => false)
    | _ => false

/-- Embeds IsPrimitive of part_000. -/
def IsPrimitive (t : GoType) : Bool :=
  match t with
  | .basic k =>
    match k with
    | .bool | .int32 | .int64 | .float32 | .float64 | .string => true
    | _ => false
  | _ => false

/-- Embeds IsEntity of part_000. -/
def IsEntity (obj : Option TypeName) (t : GoType) : Bool :=
  if IsResource obj t then true else (IsSpecial obj).1

/-- The string rendered by the String method of a go/types Named type:
qualified package path, a dot, and the simple name. -/
def goNamedString (o : TypeName) : String :=
  if o.pkgPath = "" then o.name else o.pkgPath ++ "." ++ o.name

/-- Embeds defaultRefType of generate.go: keep what follows the last dot and
prepend the package name with the index module. -/
def defaultRefType (pkgName t : String) : String :=
  pkgName ++ ":index:" ++ ((splitChar '.' t).getLastD t)

/-- The isStringKey computation inside the map arm of gatherSchemaType
(generate.go lines 329 to 337). -/
def isStringKeyType (kt : GoType) : Bool :=
  match kt with
  | .basic k => k = BasicKind.string
  | .named _ u =>
    match u with
    | .basic bk => bk = BasicKind.string
    | _ => false
  | _ => false

/-- Embeds gatherSchemaType of generate.go. The generator receiver is only
consulted for its package name, which is passed explicitly. -/
def gatherSchemaType (pkgName : String) (t : GoType) (opts : PropertyOptions) :
    Except GoError TypeSpec :=
  match t with
  | .basic k =>
    match k with
    | .bool => .ok (TypeSpec.mk boolTypeString "" none)
    | .int | .int16 | .int32 | .int64 => .ok (TypeSpec.mk intTypeString "" none)
    | .float32 | .float64 => .ok (TypeSpec.mk numberTypeString "" none)
    | .string => .ok (TypeSpec.mk stringTypeString "" none)
    | _ => .error (GoError.badPrimitive k)
  | .interface _ => .ok (TypeSpec.mk anyTypeString "" none)
  | .named o u =>
    match u with
    | .basic k => gatherSchemaType pkgName (.basic k) opts
    | .interface ms => gatherSchemaType pkgName (.interface ms) opts
    | .structT _ =>
      let refType := if opts.Ref = "" then defaultRefType pkgName (goNamedString o) else opts.Ref
      .ok (TypeSpec.mk "" ("#/types/" ++ refType) none)
    | _ => .error GoError.badNamedFieldType
  | .pointer e => gatherSchemaType pkgName e opts
  | .mapT kt vt =>
    if !isStringKeyType kt then .error (GoError.nonStringMapKey kt)
    else
      match gatherSchemaType pkgName vt {} with
      | .error e => .error e
      | .ok et => .ok (TypeSpec.mk "object" "" (some et))
  | .slice e =>
    match gatherSchemaType pkgName e {} with
    | .error e => .error e
    | .ok et => .ok (TypeSpec.mk "" "" (some et))
  | t => .error (GoError.unrecognizedFieldType t)

/-- A syntactic struct field entry of the parsed AST (ast.Field): the list of
declared names (empty for an embedded field) and the doc comment text. -/
structure SynField : Type where
  names : List String
  doc : Option String
deriving DecidableEq, Repr

/-- The type expression of a parsed type declaration, as far as the source
inspects it: a struct type with its syntactic field list, or anything else. -/
inductive AstTypeExpr : Type where
  | structType : List SynField → AstTypeExpr
  | otherExpr : AstTypeExpr
deriving DecidableEq, Repr

/-- A parsed type declaration (ast.TypeSpec): name, doc comment text, type
expression. -/
structure TypeSpecNode : Type where
  name : String
  doc : Option String
  typeExpr : AstTypeExpr
deriving DecidableEq, Repr

/-- Embeds strings.Trim applied with a newline cutset. -/
def trimNewlines (s : String) : String :=
  String.mk (((s.toList.dropWhile (fun c => c = '\n')).reverse.dropWhile
    (fun c => c = '\n')).reverse)

/-- Embeds the external schema.PropertySpec fields the source populates. -/
structure PropertySpec : Type where
  typeSpec : TypeSpec
  description : String := ""

/-- First value found for a key in an association list, mirroring a Go map
read. -/
def lookupAL {α : Type} (m : List (String × α)) (k : String) : Option α :=
  match m with
  | [] => none
  | (k0, v) :: rest => if k0 = k then some v else lookupAL rest k

/-- Association-list insertion mirroring a Go map write: replace the existing
entry for the key, or append a fresh one. -/
def insertAL {α : Type} (m : List (String × α)) (k : String) (v : α) :
    List (String × α) :=
  match m with
  | [] => [(k, v)]
  | (k0, v0) :: rest => if k0 = k then (k, v) :: rest else (k0, v0) :: insertAL rest k v

/-- Number of entries stored under a key in an association list. -/
def countKey {α : Type} (m : List (String × α)) (k : String) : Nat :=
  (m.filter fun p => p.1 = k).length

/-- The pointer test done by the type assertion in the optional validation of
gatherPropertySchemas (generate.go line 203). -/
def isPointerType (t : GoType) : Bool :=
  match t with
  | .pointer _ => true
  | _ => false

/-- The per-field body of the property loop in gatherPropertySchemas
(generate.go lines 189 to 227), run after the tag was found present: the
three option validations, the type mapping, and the doc-comment attachment
whose syntactic indexing can panic. -/
def gatherFieldProperty (pkgName : String) (isRes : Bool) (node : TypeSpecNode)
    (tName : String) (fld : SemField) (i : Nat) (opts : PropertyOptions) :
    Except GoError PropertySpec :=
  if opts.Name = "" then .error (GoError.missingNameTag tName fld.name)
  else if opts.Out && !isRes then .error (GoError.outNotResource tName fld.name)
  else if opts.Replaces && !isRes then .error (GoError.replacesNotResource tName fld.name)
  else if !isPointerType fld.type && opts.Optional then
    .error (GoError.optionalNotPointer tName fld.name)
  else
    match gatherSchemaType pkgName fld.type opts with
    | .error e => .error (GoError.illegalSchemaType tName fld.name e)
    | .ok propType =>
      let propSpec : PropertySpec := { typeSpec := propType }
      match node.typeExpr with
      | .structType synFields =>
        match synFields[i]? with
        | none => .error (GoError.panicIndexOutOfRange i synFields.length)
        | some sf =>
          match sf.doc with
          | some c => .ok { propSpec with description := trimNewlines c }
          | none => .ok propSpec
      | .otherExpr => .ok propSpec

/-- The field loop of gatherPropertySchemas (generate.go lines 180 to 228):
walk the semantic fields with their index, skip untagged fields, process the
tagged ones, and accumulate the properties map. -/
def gatherPropsLoop (pkgName : String) (isRes : Bool) (node : TypeSpecNode)
    (tName : String) (flds : List SemField) (i : Nat)
    (props : List (String × PropertySpec)) :
    Except GoError (List (String × PropertySpec)) :=
  match flds with
  | [] => .ok props
  | fld :: rest =>
    let parsed := ParsePropertyOptions fld.tag
    match parsed.2.2 with
    | some e => .error e
    | none =>
      if !parsed.1 then gatherPropsLoop pkgName isRes node tName rest (i + 1) props
      else
        match gatherFieldProperty pkgName isRes node tName fld i parsed.2.1 with
        | .error e => .error e
        | .ok ps =>
          gatherPropsLoop pkgName isRes node tName rest (i + 1)
            (insertAL props parsed.2.1.Name ps)

/-- Embeds gatherPropertySchemas of generate.go. The propOpts map the source
also returns is allocated there but never written, so it is omitted here. -/
def gatherPropertySchemas (pkgName : String) (node : TypeSpecNode) (t : TypeName)
    (s : List SemField) : Except GoError (List (String × PropertySpec)) :=
  gatherPropsLoop pkgName (IsResource (some t) (.structT s)) node t.name s 0 []

/-- Embeds the external schema.ObjectTypeSpec fields the source populates. -/
structure ObjectTypeSpec : Type where
  type : String
  properties : List (String × PropertySpec)
  description : String := ""

/-- Embeds the external schema.ResourceSpec fields the source populates. -/
structure ResourceSpec : Type where
  objectTypeSpec : ObjectTypeSpec
  isComponent : Bool

/-- Embeds the external schema.ComplexTypeSpec fields the source populates. -/
structure ComplexTypeSpec : Type where
  objectTypeSpec : ObjectTypeSpec

/-- The generator state of generate.go: package name and the two registries.
The loader handles are external and not needed by the embedded functions. -/
structure Generator : Type where
  name : String
  resources : List (String × ResourceSpec)
  types : List (String × ComplexTypeSpec)

/-- Embeds gatherStructSchemas of generate.go: skip registered names, gather
the properties, then register a resource spec, a complex type spec, or
nothing. -/
def gatherStructSchemas (g : Generator) (node : TypeSpecNode) (t : TypeName)
    (s : List SemField) : Except GoError Generator :=
  let name := t.name
  let hasType := (lookupAL g.types name).isSome
  let hasResource := (lookupAL g.resources name).isSome
  if hasType || hasResource then .ok g
  else
    match gatherPropertySchemas g.name node t s with
    | .error e => .error e
    | .ok props =>
      let typeSpec : ObjectTypeSpec :=
        { type := "object"
          properties := props
          description := match node.doc with | some d => trimNewlines d | none => "" }
      if IsResource (some t) (.structT s) then
        let rs : ResourceSpec := { objectTypeSpec := typeSpec, isComponent := true }
        .ok { g with resources := insertAL g.resources name rs }
      else if props.length > 0 then
        let cs : ComplexTypeSpec := { objectTypeSpec := typeSpec }
        .ok { g with types := insertAL g.types name cs }
      else
        .ok g

/-- Recognizer for the four tag-validation errors raised at generate.go lines
191 to 206, as opposed to type-mapping failures or the indexing panic. -/
def isTagValidationError (e : GoError) : Bool :=
  match e with
  | .missingNameTag _ _ => true
  | .outNotResource _ _ => true
  | .replacesNotResource _ _ => true
  | .optionalNotPointer _ _ => true
  | _ => false

/-- Whether a per-field result aborted with one of the tag-validation
errors. -/
def exceptTagError (r : Except GoError PropertySpec) : Bool :=
  match r with
  | .error e => isTagValidationError e
  | .ok _ => false

/-- The basic kinds the scalar arm of gatherSchemaType accepts (generate.go
lines 289 to 298). -/
def kindSupported (k : BasicKind) : Bool :=
  match k with
  | .bool | .int | .int16 | .int32 | .int64 | .float32 | .float64 | .string => true
  | _ => false

/-- The scalar type string gatherSchemaType emits for a supported basic
kind. -/
def scalarTypeString (k : BasicKind) : String :=
  match k with
  | .bool => boolTypeString
  | .int | .int16 | .int32 | .int64 => intTypeString
  | .float32 | .float64 => numberTypeString
  | .string => stringTypeString
  | _ => ""

/-- Modelled from the spec wording of the scalar rule: the integer kinds of
the Go basic-kind classification (the IsInteger info bit of go/types), which
include the int8, unsigned and uintptr kinds. -/
def kindIsInteger (k : BasicKind) : Bool :=
  match k with
  | .int | .int8 | .int16 | .int32 | .int64
  | .uint | .uint8 | .uint16 | .uint32 | .uint64 | .uintptr => true
  | _ => false

/-- How many semantic struct fields one syntactic field entry declares: one
for an embedded field with no names, otherwise one per declared name. This is
the flattening performed by the external Go type checker when it builds the
semantic field list from the parsed declaration. -/
def synFieldSemCount (f : SynField) : Nat :=
  if f.names.isEmpty then 1 else f.names.length

/-- Number of semantic fields of a struct whose syntactic entries are the
given list. -/
def semanticFieldCount (l : List SynField) : Nat :=
  (l.map synFieldSemCount).sum

/-- The TypeName object of the pulumi ResourceState marker type. -/
def resourceMarkerObj : TypeName :=
  { name := "ResourceState", pkgPath := "github.com/pulumi/pulumi/sdk/v3/go/pulumi" }

/-- The marker type as a named type. -/
def resourceMarkerType : GoType :=
  .named resourceMarkerObj (.structT [])

/-- A declaration that directly embeds the marker anonymously. -/
def innerObj : TypeName :=
  { name := "Inner", pkgPath := "example.com/pkg" }

/-- The type of the Inner declaration. -/
def innerType : GoType :=
  .named innerObj (.structT [SemField.mk "ResourceState" true resourceMarkerType []])

/-- A declaration that embeds Inner, hence reaches the marker only through two
levels of embedding. -/
def outerObj : TypeName :=
  { name := "Outer", pkgPath := "example.com/pkg" }

/-- The type of the Outer declaration. -/
def outerType : GoType :=
  .named outerObj (.structT [SemField.mk "Inner" true innerType []])

/-- An empty generator for the package named p. -/
def genEmpty : Generator :=
  { name := "p", resources := [], types := [] }

/-- A declaration object for a resource struct with no tagged fields. -/
def widgetObj : TypeName :=
  { name := "Widget", pkgPath := "example.com/pkg" }

/-- The parsed declaration node of Widget. -/
def widgetNode : TypeSpecNode :=
  { name := "Widget", doc := none, typeExpr := .structType [{ names := [], doc := none }] }

/-- The semantic fields of Widget: only the anonymous marker embedding. -/
def widgetFields : List SemField :=
  [SemField.mk "ResourceState" true resourceMarkerType []]

/-- A declaration object for a plain struct with no fields at all. -/
def emptyObj : TypeName :=
  { name := "Empty", pkgPath := "example.com/pkg" }

/-- The parsed declaration node of Empty. -/
def emptyNode : TypeSpecNode :=
  { name := "Empty", doc := none, typeExpr := .structType [] }

/-- A generator whose registry already holds a resource entry named Widget. -/
def genWithWidget : Generator :=
  { name := "p"
    resources := [("Widget", { objectTypeSpec := { type := "object", properties := [] }, isComponent := true })]
    types := [] }

/-- A syntactic field entry declaring a single name. -/
def synSingle : SynField :=
  { names := ["X"], doc := none }

/-- A syntactic field entry declaring two names at once. -/
def synMulti : SynField :=
  { names := ["X", "Y"], doc := none }

/-- The declaration object of a struct declaring X, Y int in one entry. -/
def multiObj : TypeName :=
  { name := "M", pkgPath := "example.com/pkg" }

/-- The parsed declaration node of that struct: one syntactic entry. -/
def multiNode : TypeSpecNode :=
  { name := "M", doc := none, typeExpr := .structType [synMulti] }

/-- The semantic fields of that struct: two, sharing the syntactic entry and
its tag. -/
def multiFields : List SemField :=
  [SemField.mk "X" false (GoType.basic .int) [("pulumi", "x")],
   SemField.mk "Y" false (GoType.basic .int) [("pulumi", "y")]]

/-- Reading back a key just written into an association list. -/
theorem lookupAL_insertAL_self {α : Type} (m : List (String × α)) (k : String) (v : α) :
    lookupAL (insertAL m k v) k = some v := by
  induction m with
  | nil => simp [insertAL, lookupAL]
  | cons p rest ih =>
    obtain ⟨k0, v0⟩ := p
    by_cases h : k0 = k <;> simp [insertAL, lookupAL, h, ih]

/-- Unfolding countKey over a cons cell. -/
theorem countKey_cons {α : Type} (k0 : String) (v0 : α) (rest : List (String × α)) (k : String) :
    countKey ((k0, v0) :: rest) k = (if k0 = k then 1 else 0) + countKey rest k := by
  by_cases h : k0 = k <;> simp [countKey, List.filter, h]
  omega

/-- A key is absent exactly when it is counted zero times. -/
theorem countKey_eq_zero_iff {α : Type} (m : List (String × α)) (k : String) :
    countKey m k = 0 ↔ lookupAL m k = none := by
  induction m with
  | nil => simp [countKey, lookupAL]
  | cons p rest ih =>
    obtain ⟨k0, v0⟩ := p
    by_cases h : k0 = k <;> simp [countKey_cons, lookupAL, h, ih]

/-- Inserting a fresh key raises its count by one. -/
theorem countKey_insertAL_of_none {α : Type} (m : List (String × α)) (k : String) (v : α)
    (h : lookupAL m k = none) : countKey (insertAL m k v) k = countKey m k + 1 := by
  induction m with
  | nil => simp [insertAL, countKey, List.filter]
  | cons p rest ih =>
    obtain ⟨k0, v0⟩ := p
    by_cases hk : k0 = k
    · simp [lookupAL, hk] at h
    · simp only [lookupAL, hk, ite_false] at h
      simp only [insertAL, hk, ite_false, countKey_cons, if_neg hk]
      rw [ih h]
      omega

/-- One decoding step never touches the name. -/
theorem applyOptionKey_Name (r : PropertyOptions) (key : String) :
    (applyOptionKey r key).Name = r.Name := by
  unfold applyOptionKey
  split_ifs <;> rfl

/-- One decoding step sets Optional exactly on the optional keyword. -/
theorem applyOptionKey_Optional (r : PropertyOptions) (key : String) :
    (applyOptionKey r key).Optional = (r.Optional || key == "optional") := by
  unfold applyOptionKey
  split_ifs <;> subst_vars <;> simp_all

/-- One decoding step sets Replaces exactly on the replaces keyword. -/
theorem applyOptionKey_Replaces (r : PropertyOptions) (key : String) :
    (applyOptionKey r key).Replaces = (r.Replaces || key == "replaces") := by
  unfold applyOptionKey
  split_ifs <;> subst_vars <;> simp_all

/-- One decoding step sets In exactly on the in keyword. -/
theorem applyOptionKey_In (r : PropertyOptions) (key : String) :
    (applyOptionKey r key).In = (r.In || key == "in") := by
  unfold applyOptionKey
  split_ifs <;> subst_vars <;> simp_all

/-- One decoding step sets Out exactly on the out keyword. -/
theorem applyOptionKey_Out (r : PropertyOptions) (key : String) :
    (applyOptionKey r key).Out = (r.Out || key == "out") := by
  unfold applyOptionKey
  split_ifs <;> subst_vars <;> simp_all

/-- One decoding step overwrites Ref exactly on a ref prefixed token. -/
theorem applyOptionKey_Ref (r : PropertyOptions) (key : String) :
    (applyOptionKey r key).Ref = (if goHasPrefix key "ref=" then goDrop key 4 else r.Ref) := by
  unfold applyOptionKey
  split_ifs <;> subst_vars
  all_goals try rfl
  all_goals exact absurd (by assumption : goHasPrefix _ "ref=" = true) (by decide)

/-- The decoding fold never touches the name. -/
theorem foldl_applyOptionKey_Name (keys : List String) (r : PropertyOptions) :
    (keys.foldl applyOptionKey r).Name = r.Name := by
  induction keys generalizing r with
  | nil => rfl
  | cons key rest ih => rw [List.foldl_cons, ih, applyOptionKey_Name]

/-- The decoding fold sets Optional exactly when the segment list holds the
optional keyword. -/
theorem foldl_applyOptionKey_Optional (keys : List String) (r : PropertyOptions) :
    (keys.foldl applyOptionKey r).Optional = (r.Optional || keys.contains "optional") := by
  induction keys generalizing r with
  | nil => simp
  | cons key rest ih =>
    rw [List.foldl_cons, ih, applyOptionKey_Optional, List.contains_cons]
    by_cases hk : key = "optional"
    · subst hk
      simp [Bool.or_assoc, Bool.or_comm, Bool.or_left_comm]
    · have h1 : (key == "optional") = false := by rw [beq_eq_false_iff_ne]; exact hk
      have h2 : ("optional" == key) = false := by
        rw [beq_eq_false_iff_ne]; exact fun he => hk he.symm
      simp [h1, h2]

/-- The decoding fold sets Replaces exactly when the segment list holds the
replaces keyword. -/
theorem foldl_applyOptionKey_Replaces (keys : List String) (r : PropertyOptions) :
    (keys.foldl applyOptionKey r).Replaces = (r.Replaces || keys.contains "replaces") := by
  induction keys generalizing r with
  | nil => simp
  | cons key rest ih =>
    rw [List.foldl_cons, ih, applyOptionKey_Replaces, List.contains_cons]
    by_cases hk : key = "replaces"
    · subst hk
      simp [Bool.or_assoc, Bool.or_comm, Bool.or_left_comm]
    · have h1 : (key == "replaces") = false := by rw [beq_eq_false_iff_ne]; exact hk
      have h2 : ("replaces" == key) = false := by
        rw [beq_eq_false_iff_ne]; exact fun he => hk he.symm
      simp [h1, h2]

/-- The decoding fold sets In exactly when the segment list holds the in
keyword. -/
theorem foldl_applyOptionKey_In (keys : List String) (r : PropertyOptions) :
    (keys.foldl applyOptionKey r).In = (r.In || keys.contains "in") := by
  induction keys generalizing r with
  | nil => simp
  | cons key rest ih =>
    rw [List.foldl_cons, ih, applyOptionKey_In, List.contains_cons]
    by_cases hk : key = "in"
    · subst hk
      simp [Bool.or_assoc, Bool.or_comm, Bool.or_left_comm]
    · have h1 : (key == "in") = false := by rw [beq_eq_false_iff_ne]; exact hk
      have h2 : ("in" == key) = false := by rw [beq_eq_false_iff_ne]; exact fun he => hk he.symm
      simp [h1, h2]

/-- The decoding fold sets Out exactly when the segment list holds the out
keyword. -/
theorem foldl_applyOptionKey_Out (keys : List String) (r : PropertyOptions) :
    (keys.foldl applyOptionKey r).Out = (r.Out || keys.contains "out") := by
  induction keys generalizing r with
  | nil => simp
  | cons key rest ih =>
    rw [List.foldl_cons, ih, applyOptionKey_Out, List.contains_cons]
    by_cases hk : key = "out"
    · subst hk
      simp [Bool.or_assoc, Bool.or_comm, Bool.or_left_comm]
    · have h1 : (key == "out") = false := by rw [beq_eq_false_iff_ne]; exact hk
      have h2 : ("out" == key) = false := by rw [beq_eq_false_iff_ne]; exact fun he => hk he.symm
      simp [h1, h2]

/-- The decoding fold leaves in Ref the payload of the last ref prefixed
segment. -/
theorem foldl_applyOptionKey_Ref (keys : List String) (r : PropertyOptions) :
    (keys.foldl applyOptionKey r).Ref =
      (match (keys.filter fun k => goHasPrefix k "ref=").getLast? with
       | some k => goDrop k 4
       | none => r.Ref) := by
  induction keys generalizing r with
  | nil => simp
  | cons key rest ih =>
    by_cases h : goHasPrefix key "ref=" = true
    · rw [List.foldl_cons, List.filter_cons, if_pos h, ih, applyOptionKey_Ref, if_pos h]
      cases hh : (rest.filter fun k => goHasPrefix k "ref=") with
      | nil => simp
      | cons a l => rw [List.getLast?_cons_cons, List.getLast?_cons]
    · rw [List.foldl_cons, List.filter_cons, if_neg h, ih, applyOptionKey_Ref, if_neg h]

/-- The type mapper reads nothing of the options except the explicit ref
override. -/
theorem gatherSchemaType_opts_ref (pkg : String) :
    ∀ (t : GoType) (o1 o2 : PropertyOptions), o1.Ref = o2.Ref →
      gatherSchemaType pkg t o1 = gatherSchemaType pkg t o2
  | GoType.basic _, _, _, _ => rfl
  | GoType.interface _, _, _, _ => rfl
  | GoType.named o u, o1, o2, h => by
    cases u with
    | basic k => rfl
    | interface ms => rfl
    | structT fs => simp only [gatherSchemaType, h]
    | named o2 u2 => rfl
    | pointer e => rfl
    | mapT kt vt => rfl
    | slice e => rfl
    | chanT e => rfl
    | funcT => rfl
  | GoType.pointer e, o1, o2, h => gatherSchemaType_opts_ref pkg e o1 o2 h
  | GoType.mapT _ _, _, _, _ => rfl
  | GoType.slice _, _, _, _ => rfl
  | GoType.structT _, _, _, _ => rfl
  | GoType.chanT _, _, _, _ => rfl
  | GoType.funcT, _, _, _ => rfl

/-- A field witnesses resource-ness exactly when it is anonymous and its
declared type is a named type whose object is the special resource marker. -/
theorem anonMarkerField_iff (fld : SemField) :
    (fld.anonymous && (match fld.type with
      | GoType.named nobj _ => IsSpecialResource (some nobj)
      | _ => false)) = true ↔
    (fld.anonymous = true ∧ ∃ n u, fld.type = GoType.named n u ∧
      IsSpecialResource (some n) = true) := by
  rw [Bool.and_eq_true]
  apply and_congr_right
  intro _
  cases hft : fld.type <;> simp_all

/-- A registered name makes gatherStructSchemas a no-op. -/
theorem gatherStructSchemas_skip (g : Generator) (node : TypeSpecNode) (t : TypeName)
    (s : List SemField)
    (h : ((lookupAL g.types t.name).isSome || (lookupAL g.resources t.name).isSome) = true) :
    gatherStructSchemas g node t s = .ok g := by
  unfold gatherStructSchemas
  rw [if_pos h]

/-- An unregistered name propagates a property-gathering error. -/
theorem gatherStructSchemas_err (g : Generator) (node : TypeSpecNode) (t : TypeName)
    (s : List SemField) (e : GoError)
    (h : ((lookupAL g.types t.name).isSome || (lookupAL g.resources t.name).isSome) = false)
    (hp : gatherPropertySchemas g.name node t s = .error e) :
    gatherStructSchemas g node t s = .error e := by
  have hne : ¬(((lookupAL g.types t.name).isSome ||
      (lookupAL g.resources t.name).isSome) = true) := by simp [h]
  unfold gatherStructSchemas
  rw [if_neg hne, hp]

/-- The registration step of gatherStructSchemas on an unregistered name whose
properties gathered successfully. -/
theorem gatherStructSchemas_run (g : Generator) (node : TypeSpecNode) (t : TypeName)
    (s : List SemField) (props : List (String × PropertySpec))
    (h : ((lookupAL g.types t.name).isSome || (lookupAL g.resources t.name).isSome) = false)
    (hp : gatherPropertySchemas g.name node t s = .ok props) :
    gatherStructSchemas g node t s =
      (if IsResource (some t) (GoType.structT s) = true then
        .ok { g with resources := insertAL g.resources t.name (ResourceSpec.mk (ObjectTypeSpec.mk "object" props (match node.doc with | some d => trimNewlines d | none => "")) true) }
      else if props.length > 0 then
        .ok { g with types := insertAL g.types t.name (ComplexTypeSpec.mk (ObjectTypeSpec.mk "object" props (match node.doc with | some d => trimNewlines d | none => ""))) }
      else .ok g) := by
  have hne : ¬(((lookupAL g.types t.name).isSome ||
      (lookupAL g.resources t.name).isSome) = true) := by simp [h]
  unfold gatherStructSchemas
  rw [if_neg hne, hp]

/-- Every syntactic entry accounts for at least one semantic field. -/
theorem semanticFieldCount_ge_length (l : List SynField) :
    l.length ≤ semanticFieldCount l := by
  induction l with
  | nil => simp [semanticFieldCount]
  | cons f rest ih =>
    have hf : 1 ≤ synFieldSemCount f := by
      unfold synFieldSemCount
      split_ifs with h
      · omega
      · have hne : f.names ≠ [] := by simpa [List.isEmpty_iff] using h
        have := List.length_pos.mpr hne
        omega
    simp only [semanticFieldCount, List.map_cons, List.sum_cons, List.length_cons] at *
    omega

/-- Claim C1. For a declaration whose shape is a struct, IsResource returns
true exactly when the declaration object is itself the resource marker or some
anonymous field has a named type whose object is the marker; the named wrapper
is looked through one level, and a struct reaching the marker only through two
levels of embedding, as the concrete Outer and Inner declarations do, is not
classified as a resource. -/
theorem claim1_isResource_characterization :
    (∀ (obj : TypeName) (fields : List SemField),
      IsResource (some obj) (GoType.structT fields) = true ↔
        (IsSpecialResource (some obj) = true ∨
         ∃ fld ∈ fields, fld.anonymous = true ∧
           ∃ n u, fld.type = GoType.named n u ∧ IsSpecialResource (some n) = true)) ∧
    (∀ (obj o : TypeName) (fields : List SemField),
      IsResource (some obj) (GoType.named o (GoType.structT fields)) =
        IsResource (some obj) (GoType.structT fields)) ∧
    (IsResource (some innerObj) innerType = true ∧
     IsResource (some outerObj) outerType = false) := by
  refine ⟨?_, fun _ _ _ => rfl, rfl, rfl⟩
  intro obj fields
  by_cases hs : IsSpecialResource (some obj) = true
  · simp [IsResource, hs]
  · rw [show IsResource (some obj) (GoType.structT fields) =
        fields.any (fun fld => fld.anonymous && (match fld.type with
          | GoType.named nobj _ => IsSpecialResource (some nobj)
          | _ => false)) by unfold IsResource; rw [if_neg hs]]
    rw [List.any_eq_true]
    simp only [anonMarkerField_iff]
    simp [hs]

/-- Claim C1 witness: the marker declaration itself is classified as a
resource. -/
theorem claim1_isResource_witness :
    IsResource (some resourceMarkerObj) (GoType.structT []) = true :=
  (claim1_isResource_characterization.1 resourceMarkerObj []).mpr (Or.inl rfl)

/-- Claim C2. On an unregistered struct declaration whose properties gather
without error: a resource is stored in the resources registry with the
isComponent flag set, even with an empty property map, leaving the types
registry untouched; a non-resource with at least one property is stored in the
types registry, leaving the resources registry untouched; and a non-resource
with no properties is dropped silently, the state coming back unchanged. -/
theorem claim2_struct_registration (g : Generator) (node : TypeSpecNode) (t : TypeName)
    (s : List SemField)
    (hT : lookupAL g.types t.name = none) (hR : lookupAL g.resources t.name = none)
    (props : List (String × PropertySpec))
    (hp : gatherPropertySchemas g.name node t s = .ok props) :
    (IsResource (some t) (GoType.structT s) = true →
      ∃ g' rs, gatherStructSchemas g node t s = .ok g' ∧
        lookupAL g'.resources t.name = some rs ∧ rs.isComponent = true ∧ g'.types = g.types) ∧
    (IsResource (some t) (GoType.structT s) = false → props ≠ [] →
      ∃ g', gatherStructSchemas g node t s = .ok g' ∧
        (lookupAL g'.types t.name).isSome = true ∧ g'.resources = g.resources) ∧
    (IsResource (some t) (GoType.structT s) = false → props = [] →
      gatherStructSchemas g node t s = .ok g) := by
  refine ⟨?_, ?_, ?_⟩
  · intro hres
    unfold gatherStructSchemas
    simp only [hT, hR, Option.isSome_none, Bool.or_self, Bool.false_eq_true, if_false, hp, hres,
      if_true]
    exact ⟨_, _, rfl, lookupAL_insertAL_self _ _ _, rfl, rfl⟩
  · intro hres hne
    unfold gatherStructSchemas
    simp only [hT, hR, Option.isSome_none, Bool.or_self, Bool.false_eq_true, if_false, hp, hres,
      if_true, gt_iff_lt, List.length_pos.mpr hne, if_pos]
    refine ⟨_, rfl, ?_, rfl⟩
    rw [lookupAL_insertAL_self]
    rfl
  · intro hres hnil
    subst hnil
    unfold gatherStructSchemas
    simp [hT, hR, hp, hres]

/-- Claim C2 witness: the Widget resource declaration, which embeds the marker
and has no tagged field, registers as a component resource. -/
theorem claim2_struct_registration_witness :
    ∃ g' rs, gatherStructSchemas genEmpty widgetNode widgetObj widgetFields = .ok g' ∧
      lookupAL g'.resources "Widget" = some rs ∧ rs.isComponent = true ∧
      g'.types = genEmpty.types :=
  (claim2_struct_registration genEmpty widgetNode widgetObj widgetFields rfl rfl [] rfl).1 rfl

/-- Claim C3 counterexample. The claim says that after one or many visits of a
declaration name the registry holds exactly one entry for it. Visiting the
Empty declaration, a non-resource struct with no tagged field, succeeds yet
leaves zero entries for its name, not one. -/
theorem claim3_registration_counterexample :
    gatherStructSchemas genEmpty emptyNode emptyObj [] = .ok genEmpty ∧
    countKey genEmpty.resources "Empty" + countKey genEmpty.types "Empty" = 0 ∧
    countKey genEmpty.resources "Empty" + countKey genEmpty.types "Empty" ≠ 1 :=
  ⟨rfl, rfl, by decide⟩

/-- Claim C3, amended. A name already registered as a resource or a complex
type is skipped without error; processing a declaration a second time is a
no-op returning the same state; starting from a state with no entry for the
name, a successful visit leaves at most one entry for it across both
registries, exactly one whenever the declaration is classified a resource;
and, naming the gathered properties, the entry count after the visit is
exactly one whenever the declaration registers at all, a resource or a
non-resource with at least one tagged property, and exactly zero for a
dropped non-resource struct with no tagged property. -/
theorem claim3_registration_idempotent :
    (∀ (g : Generator) (node : TypeSpecNode) (t : TypeName) (s : List SemField),
      ((lookupAL g.types t.name).isSome || (lookupAL g.resources t.name).isSome) = true →
      gatherStructSchemas g node t s = .ok g) ∧
    (∀ (g : Generator) (node : TypeSpecNode) (t : TypeName) (s : List SemField) (g' : Generator),
      gatherStructSchemas g node t s = .ok g' →
      gatherStructSchemas g' node t s = .ok g') ∧
    (∀ (g : Generator) (node : TypeSpecNode) (t : TypeName) (s : List SemField) (g' : Generator),
      gatherStructSchemas g node t s = .ok g' →
      countKey g.resources t.name + countKey g.types t.name = 0 →
      (countKey g'.resources t.name + countKey g'.types t.name ≤ 1 ∧
       (IsResource (some t) (GoType.structT s) = true →
         countKey g'.resources t.name + countKey g'.types t.name = 1))) ∧
    (∀ (g : Generator) (node : TypeSpecNode) (t : TypeName) (s : List SemField) (g' : Generator)
       (props : List (String × PropertySpec)),
      gatherStructSchemas g node t s = .ok g' →
      gatherPropertySchemas g.name node t s = .ok props →
      countKey g.resources t.name + countKey g.types t.name = 0 →
      countKey g'.resources t.name + countKey g'.types t.name =
        (if IsResource (some t) (GoType.structT s) = true then 1
         else if props.length > 0 then 1 else 0)) := by
  refine ⟨fun g node t s h => gatherStructSchemas_skip g node t s h, ?_, ?_, ?_⟩
  · intro g node t s g' h
    cases hskip : ((lookupAL g.types t.name).isSome || (lookupAL g.resources t.name).isSome) with
    | true =>
      rw [gatherStructSchemas_skip g node t s hskip] at h
      simp only [Except.ok.injEq] at h
      subst h
      exact gatherStructSchemas_skip g node t s hskip
    | false =>
      cases hp : gatherPropertySchemas g.name node t s with
      | error e => rw [gatherStructSchemas_err g node t s e hskip hp] at h; simp at h
      | ok props =>
        rw [gatherStructSchemas_run g node t s props hskip hp] at h
        by_cases hres : IsResource (some t) (GoType.structT s) = true
        · rw [if_pos hres] at h
          simp only [Except.ok.injEq] at h
          subst h
          apply gatherStructSchemas_skip
          simp [lookupAL_insertAL_self]
        · rw [if_neg hres] at h
          by_cases hlen : props.length > 0
          · rw [if_pos hlen] at h
            simp only [Except.ok.injEq] at h
            subst h
            apply gatherStructSchemas_skip
            simp [lookupAL_insertAL_self]
          · rw [if_neg hlen] at h
            simp only [Except.ok.injEq] at h
            subst h
            rw [gatherStructSchemas_run g node t s props hskip hp, if_neg hres, if_neg hlen]
  · intro g node t s g' h hzero
    have hzr : countKey g.resources t.name = 0 := by omega
    have hzt : countKey g.types t.name = 0 := by omega
    have hlr : lookupAL g.resources t.name = none := (countKey_eq_zero_iff _ _).mp hzr
    have hlt : lookupAL g.types t.name = none := (countKey_eq_zero_iff _ _).mp hzt
    have hskip : ((lookupAL g.types t.name).isSome ||
        (lookupAL g.resources t.name).isSome) = false := by rw [hlr, hlt]; rfl
    cases hp : gatherPropertySchemas g.name node t s with
    | error e => rw [gatherStructSchemas_err g node t s e hskip hp] at h; simp at h
    | ok props =>
      rw [gatherStructSchemas_run g node t s props hskip hp] at h
      by_cases hres : IsResource (some t) (GoType.structT s) = true
      · rw [if_pos hres] at h
        simp only [Except.ok.injEq] at h
        subst h
        have hcnt : countKey (insertAL g.resources t.name (ResourceSpec.mk (ObjectTypeSpec.mk "object" props (match node.doc with | some d => trimNewlines d | none => "")) true)) t.name = 1 := by
          rw [countKey_insertAL_of_none _ _ _ hlr, hzr]
        exact ⟨by simp only [hcnt, hzt]; omega, fun _ => by simp only [hcnt, hzt]⟩
      · rw [if_neg hres] at h
        by_cases hlen : props.length > 0
        · rw [if_pos hlen] at h
          simp only [Except.ok.injEq] at h
          subst h
          have hcnt : countKey (insertAL g.types t.name (ComplexTypeSpec.mk (ObjectTypeSpec.mk "object" props (match node.doc with | some d => trimNewlines d | none => "")))) t.name = 1 := by
            rw [countKey_insertAL_of_none _ _ _ hlt, hzt]
          exact ⟨by simp only [hcnt, hzr]; omega, fun hres2 => absurd hres2 hres⟩
        · rw [if_neg hlen] at h
          simp only [Except.ok.injEq] at h
          subst h
          exact ⟨by omega, fun hres2 => absurd hres2 hres⟩
  · intro g node t s g' props h hp hzero
    have hzr : countKey g.resources t.name = 0 := by omega
    have hzt : countKey g.types t.name = 0 := by omega
    have hlr : lookupAL g.resources t.name = none := (countKey_eq_zero_iff _ _).mp hzr
    have hlt : lookupAL g.types t.name = none := (countKey_eq_zero_iff _ _).mp hzt
    have hskip : ((lookupAL g.types t.name).isSome ||
        (lookupAL g.resources t.name).isSome) = false := by rw [hlr, hlt]; rfl
    rw [gatherStructSchemas_run g node t s props hskip hp] at h
    by_cases hres : IsResource (some t) (GoType.structT s) = true
    · rw [if_pos hres] at h
      simp only [Except.ok.injEq] at h
      subst h
      rw [if_pos hres]
      have hcnt : countKey (insertAL g.resources t.name (ResourceSpec.mk (ObjectTypeSpec.mk "object" props (match node.doc with | some d => trimNewlines d | none => "")) true)) t.name = 1 := by
        rw [countKey_insertAL_of_none _ _ _ hlr, hzr]
      simp only [hcnt, hzt]
    · rw [if_neg hres] at h
      rw [if_neg hres]
      by_cases hlen : props.length > 0
      · rw [if_pos hlen] at h
        rw [if_pos hlen]
        simp only [Except.ok.injEq] at h
        subst h
        have hcnt : countKey (insertAL g.types t.name (ComplexTypeSpec.mk (ObjectTypeSpec.mk "object" props (match node.doc with | some d => trimNewlines d | none => "")))) t.name = 1 := by
          rw [countKey_insertAL_of_none _ _ _ hlt, hzt]
        simp only [hcnt, hzr]
      · rw [if_neg hlen] at h
        rw [if_neg hlen]
        simp only [Except.ok.injEq] at h
        subst h
        omega

/-- Claim C3 witness: a registry already holding the Widget resource skips a
new visit of Widget without error. -/
theorem claim3_registration_witness :
    gatherStructSchemas genWithWidget widgetNode widgetObj widgetFields = .ok genWithWidget :=
  claim3_registration_idempotent.1 genWithWidget widgetNode widgetObj widgetFields rfl

/-- Claim C4 counterexample. The claim says the parser splits the annotation
value on commas, takes the first segment as the property name and matches only
the remaining segments against the option vocabulary. On the tag whose only
key is pulumi with value a,optional the parser instead keeps the whole value,
comma included, as the name and sets no flag; on the tag whose only key is
pschema with value name,optional it leaves the name empty and treats the first
segment like any other vocabulary token. -/
theorem claim4_parser_counterexample :
    ParsePropertyOptions [("pulumi", "a,optional")] =
      (true, { Name := "a,optional" }, none) ∧
    ParsePropertyOptions [("pschema", "name,optional")] =
      (true, { Optional := true }, none) :=
  ⟨rfl, rfl⟩

/-- Claim C4, amended. The parser reads the property name verbatim from the
value of the pulumi tag key; it splits the value of the pschema tag key on
commas and matches every segment, the first included, against the fixed
vocabulary optional, replaces, in, out and the prefixed form ref=, capturing
into Ref the payload of the last ref segment and ignoring any other token;
it reports presence exactly when one of the two keys is present, and it never
returns an error. -/
theorem claim4_parser_characterization : ∀ (tag : Tag),
    (ParsePropertyOptions tag).1 =
        ((lookupTag tag PropertyNameTag).isSome || (lookupTag tag PropertyOptionsTag).isSome) ∧
    (ParsePropertyOptions tag).2.2 = none ∧
    (ParsePropertyOptions tag).2.1.Name = (lookupTag tag PropertyNameTag).getD "" ∧
    (ParsePropertyOptions tag).2.1.Optional =
        (match lookupTag tag PropertyOptionsTag with
         | some v => (splitChar ',' v).contains "optional"
         | none => false) ∧
    (ParsePropertyOptions tag).2.1.Replaces =
        (match lookupTag tag PropertyOptionsTag with
         | some v => (splitChar ',' v).contains "replaces"
         | none => false) ∧
    (ParsePropertyOptions tag).2.1.In =
        (match lookupTag tag PropertyOptionsTag with
         | some v => (splitChar ',' v).contains "in"
         | none => false) ∧
    (ParsePropertyOptions tag).2.1.Out =
        (match lookupTag tag PropertyOptionsTag with
         | some v => (splitChar ',' v).contains "out"
         | none => false) ∧
    (ParsePropertyOptions tag).2.1.Ref =
        (match lookupTag tag PropertyOptionsTag with
         | some v =>
           (match ((splitChar ',' v).filter fun k => goHasPrefix k "ref=").getLast? with
            | some k => goDrop k 4
            | none => "")
         | none => "") := by
  intro tag
  cases h1 : lookupTag tag PropertyNameTag <;> cases h2 : lookupTag tag PropertyOptionsTag <;>
    simp [ParsePropertyOptions, h1, h2, foldl_applyOptionKey_Name, foldl_applyOptionKey_In,
      foldl_applyOptionKey_Optional, foldl_applyOptionKey_Replaces, foldl_applyOptionKey_Out,
      foldl_applyOptionKey_Ref]

/-- Claim C5. For a tagged field, the per-field assembly aborts with one of
the four tag-validation errors exactly when the parsed name is empty, the out
or replaces flag is set while the declaration is not a resource, or the
optional flag is set while the declared field type is not a pointer; when the
options pass those checks no such error can arise, whatever the outcome of the
type mapping and doc attachment. -/
theorem claim5_tag_validation : ∀ (pkg : String) (isRes : Bool) (node : TypeSpecNode)
    (tName : String) (fld : SemField) (i : Nat) (opts : PropertyOptions),
    exceptTagError (gatherFieldProperty pkg isRes node tName fld i opts) = true ↔
      (opts.Name = "" ∨ ((opts.Out = true ∨ opts.Replaces = true) ∧ isRes = false) ∨
       (opts.Optional = true ∧ isPointerType fld.type = false)) := by
  intro pkg isRes node tName fld i opts
  obtain ⟨nname, ndoc, nexpr⟩ := node
  unfold gatherFieldProperty
  split_ifs with h1 h2 h3 h4
  · simp [exceptTagError, isTagValidationError, h1]
  · simp only [Bool.and_eq_true, Bool.not_eq_true'] at h2
    simp [exceptTagError, isTagValidationError, h2]
  · simp only [Bool.and_eq_true, Bool.not_eq_true'] at h3
    simp [exceptTagError, isTagValidationError, h3]
  · simp only [Bool.and_eq_true, Bool.not_eq_true'] at h4
    simp [exceptTagError, isTagValidationError, h4.1, h4.2]
  · have hnot : ¬(opts.Name = "" ∨ ((opts.Out = true ∨ opts.Replaces = true) ∧ isRes = false) ∨
        (opts.Optional = true ∧ isPointerType fld.type = false)) := by
      intro hcases
      rcases hcases with hn | ⟨hor, hres2⟩ | ⟨hopt, hptr⟩
      · exact h1 hn
      · rcases hor with ho | hr
        · exact h2 (by simp [ho, hres2])
        · exact h3 (by simp [hr, hres2])
      · exact h4 (by simp [hopt, hptr])
    cases hg : gatherSchemaType pkg fld.type opts with
    | error e => simp [exceptTagError, isTagValidationError, hnot]
    | ok propType =>
      cases nexpr with
      | otherExpr => simp [exceptTagError, hnot]
      | structType synFields =>
        cases hh : synFields[i]? with
        | none => simp [hh, exceptTagError, isTagValidationError, hnot]
        | some sf =>
          obtain ⟨ns, d⟩ := sf
          cases d <;> simp [hh, exceptTagError, hnot]

/-- Claim C10. The in flag is decoded into the options record, where it is set
exactly when the pschema value has an in segment, but nothing downstream
consults it: the per-field validation, type mapping and doc attachment return
the same result whatever the In component of the options, so its presence
never causes an error and never changes the emitted property. -/
theorem claim10_in_flag_unused :
    (∀ (tag : Tag),
      (ParsePropertyOptions tag).2.1.In =
        (match lookupTag tag PropertyOptionsTag with
         | some v => (splitChar ',' v).contains "in"
         | none => false)) ∧
    (∀ (pkg : String) (isRes : Bool) (node : TypeSpecNode) (tName : String)
       (fld : SemField) (i : Nat) (opts : PropertyOptions) (b : Bool),
      gatherFieldProperty pkg isRes node tName fld i { opts with In := b } =
        gatherFieldProperty pkg isRes node tName fld i opts) := by
  constructor
  · intro tag
    cases h1 : lookupTag tag PropertyNameTag <;> cases h2 : lookupTag tag PropertyOptionsTag <;>
      simp [ParsePropertyOptions, h1, h2, foldl_applyOptionKey_In]
  · intro pkg isRes node tName fld i opts b
    unfold gatherFieldProperty
    rw [gatherSchemaType_opts_ref pkg fld.type { opts with In := b } opts rfl]

/-- Claim C4 witness: a tag with only the pulumi key parses without error. -/
theorem claim4_parser_witness :
    (ParsePropertyOptions [("pulumi", "x")]).2.2 = none :=
  (claim4_parser_characterization [("pulumi", "x")]).2.1

/-- Claim C5 witness: an out flagged field on a non-resource declaration hits
a tag-validation error. -/
theorem claim5_tag_validation_witness :
    exceptTagError (gatherFieldProperty "p" false emptyNode "T"
      (SemField.mk "f" false (GoType.basic .int) []) 0 { Name := "n", Out := true }) = true :=
  (claim5_tag_validation "p" false emptyNode "T"
    (SemField.mk "f" false (GoType.basic .int) []) 0 { Name := "n", Out := true }).mpr
    (Or.inr (Or.inl ⟨Or.inl rfl, rfl⟩))

/-- Claim C6 counterexample. The claim says the mapper fails with the
unrecognized-field-type error on an interface that has methods; on an
interface carrying a Close method the mapper instead succeeds with the Any
descriptor. -/
theorem claim6_interface_counterexample :
    gatherSchemaType "p" (GoType.interface ["Close"]) {} =
      .ok (TypeSpec.mk anyTypeString "" none) := rfl

/-- Claim C6, amended. The mapper sends every interface type, with or
without methods, to the Any descriptor, and fails with UnrecognizedFieldType
on channels and on function types. -/
theorem claim6_interface_any : ∀ (pkg : String) (ms : List String) (e : GoType)
    (opts : PropertyOptions),
    gatherSchemaType pkg (GoType.interface ms) opts = .ok (TypeSpec.mk anyTypeString "" none) ∧
    gatherSchemaType pkg (GoType.chanT e) opts =
      .error (GoError.unrecognizedFieldType (GoType.chanT e)) ∧
    gatherSchemaType pkg GoType.funcT opts =
      .error (GoError.unrecognizedFieldType GoType.funcT) :=
  fun _ _ _ _ => ⟨rfl, rfl, rfl⟩

/-- Claim C7. Mapping a map type fails with NonStringMapKey exactly when the
key is neither the string scalar nor a named type whose underlying type is the
string scalar; with a legal key the value type is mapped recursively under
empty options and wrapped as the object descriptor with additional
properties. -/
theorem claim7_map_key_rule : ∀ (pkg : String) (kt vt : GoType) (opts : PropertyOptions),
    (isStringKeyType kt = false →
      gatherSchemaType pkg (GoType.mapT kt vt) opts = .error (GoError.nonStringMapKey kt)) ∧
    (isStringKeyType kt = true →
      gatherSchemaType pkg (GoType.mapT kt vt) opts =
        (match gatherSchemaType pkg vt {} with
         | .error e => .error e
         | .ok et => .ok (TypeSpec.mk "object" "" (some et)))) ∧
    (isStringKeyType kt = true ↔
      (kt = GoType.basic BasicKind.string ∨
       ∃ o, kt = GoType.named o (GoType.basic BasicKind.string))) := by
  intro pkg kt vt opts
  refine ⟨?_, ?_, ?_⟩
  · intro h
    unfold gatherSchemaType
    rw [h]
    rfl
  · intro h
    conv_lhs => rw [gatherSchemaType]
    rw [h]
    rfl
  · cases kt with
    | basic k => cases k <;> simp [isStringKeyType]
    | named o u => cases u with
      | basic bk => cases bk <;> simp [isStringKeyType]
      | _ => simp [isStringKeyType]
    | _ => simp [isStringKeyType]

/-- Claim C7 witness: an integer keyed map fails with NonStringMapKey, and a
map keyed by a named type with string underlying type succeeds. -/
theorem claim7_map_key_witness :
    gatherSchemaType "p" (GoType.mapT (GoType.basic BasicKind.int) (GoType.basic BasicKind.string)) {} =
      .error (GoError.nonStringMapKey (GoType.basic BasicKind.int)) ∧
    gatherSchemaType "p" (GoType.mapT (GoType.named (TypeName.mk "S" "q") (GoType.basic BasicKind.string)) (GoType.basic BasicKind.int)) {} =
      .ok (TypeSpec.mk "object" "" (some (TypeSpec.mk intTypeString "" none))) :=
  ⟨(claim7_map_key_rule "p" (GoType.basic BasicKind.int) (GoType.basic BasicKind.string) {}).1 rfl,
   by rw [(claim7_map_key_rule "p" (GoType.named (TypeName.mk "S" "q") (GoType.basic BasicKind.string)) (GoType.basic BasicKind.int) {}).2.1 rfl]; rfl⟩

/-- Claim C8 counterexample. The claim says every basic kind classified as an
integer kind maps to a Scalar descriptor; the int8 kind is an integer kind,
yet the mapper fails on it with the bad-primitive error. -/
theorem claim8_scalar_counterexample :
    kindIsInteger BasicKind.int8 = true ∧
    gatherSchemaType "p" (GoType.basic BasicKind.int8) {} =
      .error (GoError.badPrimitive BasicKind.int8) :=
  ⟨rfl, rfl⟩

/-- Claim C8, amended. The scalar arm accepts exactly the kinds bool, int,
int16, int32, int64, float32, float64 and string, emitting the matching
scalar type string; every other basic kind, the int8, unsigned, uintptr and
complex kinds included, fails with the bad-primitive error. -/
theorem claim8_scalar_mapping : ∀ (pkg : String) (k : BasicKind) (opts : PropertyOptions),
    (kindSupported k = true →
      gatherSchemaType pkg (GoType.basic k) opts =
        .ok (TypeSpec.mk (scalarTypeString k) "" none)) ∧
    (kindSupported k = false →
      gatherSchemaType pkg (GoType.basic k) opts = .error (GoError.badPrimitive k)) := by
  intro pkg k opts
  constructor <;> intro h <;> cases k <;> first | rfl | simp [kindSupported] at h

/-- Claim C8 witness: the bool kind maps to the boolean scalar. -/
theorem claim8_scalar_witness :
    gatherSchemaType "p" (GoType.basic BasicKind.bool) {} =
      .ok (TypeSpec.mk (scalarTypeString BasicKind.bool) "" none) :=
  (claim8_scalar_mapping "p" BasicKind.bool {}).1 rfl

/-- Claim C9. The doc attachment indexes the syntactic field list by the
semantic field index. When every syntactic entry declares exactly one name the
semantic count equals the syntactic length and every semantic index lands in
bounds; an entry declaring two or more names makes the semantic count exceed
the syntactic length, and on the concrete declaration of X and Y in one entry
the gathering aborts with the modelled index-out-of-range panic, so the
operation is not total over all input structs. -/
theorem claim9_syntactic_indexing :
    (∀ (l : List SynField), (∀ f ∈ l, f.names.length = 1) →
      (semanticFieldCount l = l.length ∧
       ∀ i, i < semanticFieldCount l → (l[i]?).isSome = true)) ∧
    (∀ (l : List SynField) (f : SynField), f ∈ l → 2 ≤ f.names.length →
      l.length < semanticFieldCount l) ∧
    gatherPropertySchemas "p" multiNode multiObj multiFields =
      .error (GoError.panicIndexOutOfRange 1 1) := by
  refine ⟨?_, ?_, rfl⟩
  · intro l hone
    have hlen : semanticFieldCount l = l.length := by
      induction l with
      | nil => simp [semanticFieldCount]
      | cons f rest ih =>
        have hf : f.names.length = 1 := hone f (List.mem_cons_self f rest)
        have hne : ¬f.names.isEmpty := by
          simp [List.isEmpty_iff]
          intro hx
          rw [hx] at hf
          simp at hf
        have hrest := ih (fun x hx => hone x (List.mem_cons_of_mem f hx))
        simp only [semanticFieldCount, List.map_cons, List.sum_cons, List.length_cons,
          synFieldSemCount, if_neg hne] at *
        omega
    refine ⟨hlen, ?_⟩
    intro i hi
    rw [hlen] at hi
    rw [List.getElem?_eq_getElem hi]
    rfl
  · intro l f hmem htwo
    induction l with
    | nil => simp at hmem
    | cons g rest ih =>
      rcases List.mem_cons.mp hmem with heq | hrest
      · subst heq
        have hne : ¬f.names.isEmpty := by
          simp [List.isEmpty_iff]
          intro hx
          rw [hx] at htwo
          simp at htwo
        have hge := semanticFieldCount_ge_length rest
        simp only [semanticFieldCount, List.map_cons, List.sum_cons, List.length_cons,
          synFieldSemCount, if_neg hne] at *
        omega
      · have hih := ih hrest
        have hf : 1 ≤ synFieldSemCount g := by
          unfold synFieldSemCount
          split_ifs with h
          · omega
          · have hgne : g.names ≠ [] := by simpa [List.isEmpty_iff] using h
            have := List.length_pos.mpr hgne
            omega
        simp only [semanticFieldCount, List.map_cons, List.sum_cons, List.length_cons] at *
        omega

/-- Claim C9 witness: a single one-name entry keeps index zero in bounds,
while a two-name entry makes the semantic count exceed the syntactic
length. -/
theorem claim9_syntactic_indexing_witness :
    (([synSingle] : List SynField)[0]?).isSome = true ∧
    [synMulti].length < semanticFieldCount [synMulti] :=
  ⟨(claim9_syntactic_indexing.1 [synSingle]
      (by intro f hf; rw [List.mem_singleton] at hf; subst hf; rfl)).2 0 (by decide),
   claim9_syntactic_indexing.2.1 [synMulti] synMulti (List.mem_singleton.mpr rfl) (by decide)⟩

/-- Claim C10 witness: flipping the In flag on a concrete field changes
nothing. -/
theorem claim10_in_flag_witness :
    gatherFieldProperty "p" false emptyNode "T"
      (SemField.mk "f" false (GoType.basic .int) []) 0 { Name := "n", In := true } =
    gatherFieldProperty "p" false emptyNode "T"
      (SemField.mk "f" false (GoType.basic .int) []) 0 { Name := "n" } :=
  claim10_in_flag_unused.2 "p" false emptyNode "T"
    (SemField.mk "f" false (GoType.basic .int) []) 0 { Name := "n" } true

end MkSchema
